import Mathlib

/-!
Shallow embedding of the e-commerce backend in `src/backend/server.py`.

Modelling conventions:
* The Mongo collections (`db.carts`, `db.orders`, `db.products`, `db.users`)
  become lists of documents inside a `DB` record; `find_one(q)` becomes
  `List.find?` (first matching document) and `update_one(q, {"$set": ...})`
  becomes an update of the first matching document (a no-op when no document
  matches, exactly as Mongo treats a non-upsert `update_one`).
* `datetime.now(...)` values and `uuid.uuid4()` identifiers are supplied by
  the caller as explicit `now : Nat` ticks and `freshId : String` arguments.
* Python `float` money amounts are embedded as exact rationals (`Rat`); none
  of the verified routes performs floating-point arithmetic on them — they
  are only stored, copied and compared.
* The `passlib` verifier `pwd_context.verify` and `jwt.encode` are external libraries,
  so `login` is parametrised by opaque `verify` and `sign` functions.
* `HTTPException(status_code, detail)` becomes `Except.error ⟨status, detail⟩`.
-/

namespace Store

/-- Embeds the `CartItem` pydantic model (`server.py` lines 76-81): an
unvalidated `int` quantity and a denormalized name/price/image snapshot. -/
structure CartItem where
  product_id : String
  quantity : Int
  name : String
  price : Rat
  image_url : String
  deriving DecidableEq, Repr

/-- Embeds the `Cart` pydantic model (lines 83-88). -/
structure Cart where
  id : String
  user_id : String
  items : List CartItem
  updated_at : Nat
  deriving DecidableEq, Repr

/-- Embeds the `Product` pydantic model (lines 63-74). -/
structure Product where
  id : String
  name : String
  description : String
  price : Rat
  crypto_price : Rat
  category : String
  image_url : String
  stock : Int
  features : List String
  created_at : Nat
  deriving DecidableEq, Repr

/-- Embeds the `Order` pydantic model (lines 90-101); the free-form
`shipping_address` dict is embedded as a key/value list. -/
structure Order where
  id : String
  user_id : String
  items : List CartItem
  total : Rat
  payment_method : String
  payment_status : String
  order_status : String
  crypto_tx_hash : Option String
  shipping_address : List (String × String)
  created_at : Nat
  deriving DecidableEq, Repr

/-- Embeds the `OrderCreate` request model (lines 103-108). -/
structure OrderCreate where
  items : List CartItem
  total : Rat
  payment_method : String
  shipping_address : List (String × String)
  crypto_tx_hash : Option String
  deriving DecidableEq, Repr

/-- A stored user document (the `User` model plus the `password_hash` field
added at registration, lines 152-153). -/
structure UserDoc where
  id : String
  email : String
  name : String
  password_hash : String
  created_at : Nat
  deriving DecidableEq, Repr

/-- Embeds the `User` response model (lines 42-47). -/
structure User where
  id : String
  email : String
  name : String
  created_at : Nat
  deriving DecidableEq, Repr

/-- Embeds the `Token` response model (lines 58-61). -/
structure Token where
  access_token : String
  token_type : String
  user : User
  deriving DecidableEq, Repr

/-- Embeds the `UserLogin` request model (lines 54-56). -/
structure UserLogin where
  email : String
  password : String
  deriving DecidableEq, Repr

/-- An `HTTPException(status_code, detail)`. -/
structure HErr where
  status : Nat
  detail : String
  deriving DecidableEq, Repr

/-- The document store: one list of documents per Mongo collection used by
the verified routes. -/
structure DB where
  carts : List Cart
  orders : List Order
  products : List Product
  users : List UserDoc
  deriving DecidableEq, Repr

/-- The empty document store. -/
def dbEmpty : DB := ⟨[], [], [], []⟩

/-- `db.carts.find_one({"user_id": user_id})`: first cart document whose
`user_id` matches. -/
def findCart (db : DB) (user_id : String) : Option Cart :=
  db.carts.find? (fun c => c.user_id == user_id)

/-- `db.carts.update_one({"user_id": u}, {"$set": {"items": items,
"updated_at": now}})` on the raw cart list: rewrites the first matching
document, leaves the rest alone, and is a no-op when nothing matches. -/
def updateCartList (user_id : String) (items : List CartItem) (now : Nat) :
    List Cart → List Cart
  | [] => []
  | c :: rest =>
    if c.user_id == user_id then { c with items := items, updated_at := now } :: rest
    else c :: updateCartList user_id items now rest

/-- The same `update_one` lifted to the whole store. -/
def setCartItems (user_id : String) (items : List CartItem) (now : Nat) (db : DB) : DB :=
  { db with carts := updateCartList user_id items now db.carts }

/-- Embeds `get_cart` (lines 225-239): return the existing cart, or create,
persist and return an empty one. -/
def get_cart (now : Nat) (freshId : String) (user_id : String) (db : DB) : Cart × DB :=
  match findCart db user_id with
  | some cart => (cart, db)
  | none =>
    let cart : Cart := { id := freshId, user_id := user_id, items := [], updated_at := now }
    (cart, { db with carts := db.carts ++ [cart] })

/-- The merge loop inside `add_to_cart` (lines 252-261): bump the quantity of
the first line with the same product id (keeping its snapshot fields), or
append the incoming line when no line matches. -/
def mergeItem (items : List CartItem) (item : CartItem) : List CartItem :=
  match items with
  | [] => [item]
  | existing :: rest =>
    if existing.product_id == item.product_id then
      { existing with quantity := existing.quantity + item.quantity } :: rest
    else existing :: mergeItem rest item

/-- Embeds `add_to_cart` (lines 241-268): create a one-line cart when the
user has none, otherwise merge into the existing item list and update the
timestamp. -/
def add_to_cart (now : Nat) (freshId : String) (item : CartItem) (user_id : String)
    (db : DB) : DB :=
  match findCart db user_id with
  | none =>
    { db with
      carts := db.carts ++ [{ id := freshId, user_id := user_id, items := [item], updated_at := now }] }
  | some cart => setCartItems user_id (mergeItem cart.items item) now db

/-- Embeds `remove_from_cart` (lines 270-283): 404 when the user has no
cart, otherwise drop every line with the given product id. -/
def remove_from_cart (now : Nat) (product_id : String) (user_id : String)
    (db : DB) : Except HErr DB :=
  match findCart db user_id with
  | none => Except.error ⟨404, "Cart not found"⟩
  | some cart =>
    Except.ok (setCartItems user_id (cart.items.filter (fun it => it.product_id != product_id)) now db)

/-- Embeds `clear_cart` (lines 285-291): a single `update_one` setting the
item list to `[]`; it has no error path. -/
def clear_cart (now : Nat) (user_id : String) (db : DB) : DB :=
  setCartItems user_id [] now db

/-- Embeds `create_order` (lines 294-318): build the order from the
caller-supplied fields, derive the statuses, persist it, then clear the
cart of the user. -/
def create_order (now : Nat) (freshId : String) (user_id : String) (od : OrderCreate)
    (db : DB) : Order × DB :=
  let order : Order :=
    { id := freshId
      user_id := user_id
      items := od.items
      total := od.total
      payment_method := od.payment_method
      payment_status := if od.payment_method == "card" then "completed" else "pending"
      order_status := "processing"
      crypto_tx_hash := od.crypto_tx_hash
      shipping_address := od.shipping_address
      created_at := now }
  let db1 : DB := { db with orders := db.orders ++ [order] }
  (order, setCartItems user_id [] now db1)

/-- The Mongo query built by `get_products` (lines 200-203).  In Python,
`if category and category != "all"` treats the empty string as falsy, so an
empty-string filter also selects the whole catalog. -/
def categoryQuery (category : Option String) : Product → Bool :=
  match category with
  | none => fun _ => true
  | some c => if c ≠ "" ∧ c ≠ "all" then (fun p => p.category == c) else fun _ => true

/-- Embeds `get_products` (lines 199-211): filter by the category query and
cap the result at 1000 documents (`to_list(1000)`). -/
def get_products (category : Option String) (db : DB) : List Product :=
  (db.products.filter (categoryQuery category)).take 1000

/-- Python `str.split(',')` on a character list: every comma is a separator
and empty fragments are kept. -/
def splitCharsOnComma : List Char → List (List Char)
  | [] => [[]]
  | c :: rest =>
    match splitCharsOnComma rest with
    | [] => [[]]
    | grp :: grps => if c = ',' then [] :: grp :: grps else (c :: grp) :: grps

/-- Python `response.split(',')`. -/
def pySplitComma (s : String) : List String :=
  (splitCharsOnComma s.data).map String.mk

/-- Python `str.strip()`: drop leading and trailing whitespace. -/
def pyStrip (s : String) : String :=
  String.mk (((s.data.dropWhile Char.isWhitespace).reverse.dropWhile Char.isWhitespace).reverse)

/-- The reply-parsing tail of `get_ai_recommendations` (lines 373-379),
applied to the loaded product documents and the raw model reply: split the
reply on commas, strip each token, keep products whose name is among the
tokens, truncate to 4, and return the raw reply as the explanation. -/
def get_ai_recommendations (products : List Product) (response : String) :
    List Product × String :=
  let recommended_names := (pySplitComma response).map pyStrip
  let recommended_products := products.filter (fun p => recommended_names.contains p.name)
  (recommended_products.take 4, response)

/-- Embeds `login` (lines 163-185), parametrised by the external password
verifier (`pwd_context.verify`) and token signer (`create_access_token`). -/
def login (verify : String → String → Bool) (sign : String → String)
    (user_data : UserLogin) (users : List UserDoc) : Except HErr Token :=
  match users.find? (fun d => d.email == user_data.email) with
  | none => Except.error ⟨401, "Invalid email or password"⟩
  | some doc =>
    if verify user_data.password doc.password_hash then
      Except.ok
        { access_token := sign doc.id
          token_type := "bearer"
          user := { id := doc.id, email := doc.email, name := doc.name, created_at := doc.created_at } }
    else Except.error ⟨401, "Invalid email or password"⟩

/-- One invocation of a cart-affecting route, with its nondeterministic
inputs (clock tick, fresh uuid, request payload) recorded in the
constructor. -/
inductive CartOp where
  | getCart (now : Nat) (freshId : String) (user_id : String)
  | addItem (now : Nat) (freshId : String) (user_id : String) (item : CartItem)
  | removeItem (now : Nat) (product_id : String) (user_id : String)
  | clearCart (now : Nat) (user_id : String)
  | createOrder (now : Nat) (freshId : String) (user_id : String) (od : OrderCreate)
  deriving DecidableEq, Repr

/-- Run one route against the store.  A `remove_from_cart` that raises 404
aborts before any write, so the store is returned unchanged. -/
def applyOp (op : CartOp) (db : DB) : DB :=
  match op with
  | .getCart now freshId u => (get_cart now freshId u db).2
  | .addItem now freshId u item => add_to_cart now freshId item u db
  | .removeItem now pid u =>
    match remove_from_cart now pid u db with
    | Except.ok db1 => db1
    | Except.error _ => db
  | .clearCart now u => clear_cart now u db
  | .createOrder now freshId u od => (create_order now freshId u od db).2

/-- Run a sequence of routes left to right. -/
def runOps : List CartOp → DB → DB
  | [], db => db
  | op :: rest, db => runOps rest (applyOp op db)

/-- Every line of every stored cart has a positive quantity. -/
def cartQtyPositive (db : DB) : Prop :=
  ∀ c ∈ db.carts, ∀ x ∈ c.items, 0 < x.quantity

/-- The incoming payload of an `addItem` has a positive quantity; other
routes carry no quantity. -/
def opQtyPositive : CartOp → Prop
  | .addItem _ _ _ item => 0 < item.quantity
  | _ => True

/-- Every stored cart has at most one line per product id. -/
def cartPidNodup (db : DB) : Prop :=
  ∀ c ∈ db.carts, ((c.items.map (fun x => x.product_id)).Nodup)

/-! ### Lemmas about the store primitives -/

theorem find?_updateCartList (u : String) (its : List CartItem) (now : Nat)
    (cs : List Cart) :
    (updateCartList u its now cs).find? (fun c => c.user_id == u) =
      (cs.find? (fun c => c.user_id == u)).map
        (fun c => { c with items := its, updated_at := now }) := by
  induction cs with
  | nil => rfl
  | cons c rest ih =>
    simp only [updateCartList]
    by_cases h : c.user_id = u
    · rw [if_pos (by simp [h])]
      rw [List.find?_cons_of_pos _ (by simp [h]), List.find?_cons_of_pos _ (by simp [h])]
      rfl
    · rw [if_neg (by simp [h])]
      rw [List.find?_cons_of_neg _ (by simp [h]), List.find?_cons_of_neg _ (by simp [h])]
      exact ih

theorem find?_updateCartList_ne {v u : String} (hvu : v ≠ u) (its : List CartItem)
    (now : Nat) (cs : List Cart) :
    (updateCartList u its now cs).find? (fun c => c.user_id == v) =
      cs.find? (fun c => c.user_id == v) := by
  induction cs with
  | nil => rfl
  | cons c rest ih =>
    simp only [updateCartList]
    by_cases h : c.user_id = u
    · rw [if_pos (by simp [h])]
      have hv : ¬ c.user_id = v := fun hc => hvu (hc.symm.trans h)
      rw [List.find?_cons_of_neg _ (by simp [hv]), List.find?_cons_of_neg _ (by simp [hv])]
    · rw [if_neg (by simp [h])]
      by_cases hv : c.user_id = v
      · rw [List.find?_cons_of_pos _ (by simp [hv]), List.find?_cons_of_pos _ (by simp [hv])]
      · rw [List.find?_cons_of_neg _ (by simp [hv]), List.find?_cons_of_neg _ (by simp [hv])]
        exact ih

theorem findCart_setCartItems_self (db : DB) (u : String) (its : List CartItem)
    (now : Nat) :
    findCart (setCartItems u its now db) u =
      (findCart db u).map (fun c => { c with items := its, updated_at := now }) :=
  find?_updateCartList u its now db.carts

theorem findCart_setCartItems_ne {v u : String} (hvu : v ≠ u) (db : DB)
    (its : List CartItem) (now : Nat) :
    findCart (setCartItems u its now db) v = findCart db v :=
  find?_updateCartList_ne hvu its now db.carts

theorem mem_updateCartList {c : Cart} (u : String) (its : List CartItem) (now : Nat) :
    ∀ {cs : List Cart}, c ∈ updateCartList u its now cs →
      c ∈ cs ∨ ∃ c0 ∈ cs, c = { c0 with items := its, updated_at := now } := by
  intro cs
  induction cs with
  | nil => intro h; exact absurd h (by simp [updateCartList])
  | cons a rest ih =>
    intro h
    simp only [updateCartList] at h
    by_cases ha : a.user_id = u
    · rw [if_pos (by simp [ha])] at h
      rcases List.mem_cons.mp h with h1 | h1
      · exact Or.inr ⟨a, List.mem_cons_self _ _, h1⟩
      · exact Or.inl (List.mem_cons_of_mem _ h1)
    · rw [if_neg (by simp [ha])] at h
      rcases List.mem_cons.mp h with h1 | h1
      · exact Or.inl (h1 ▸ List.mem_cons_self _ _)
      · rcases ih h1 with h2 | ⟨c0, hc0, hc⟩
        · exact Or.inl (List.mem_cons_of_mem _ h2)
        · exact Or.inr ⟨c0, List.mem_cons_of_mem _ hc0, hc⟩

theorem find?_append_of_none {α : Type} {l1 l2 : List α} {p : α → Bool}
    (h : l1.find? p = none) : (l1 ++ l2).find? p = l2.find? p := by
  simp [List.find?_append, h]

/-! ### Lemmas about the merge loop -/

theorem mergeItem_of_forall_ne (item : CartItem) :
    ∀ items : List CartItem, (∀ x ∈ items, x.product_id ≠ item.product_id) →
      mergeItem items item = items ++ [item] := by
  intro items
  induction items with
  | nil => intro _; rfl
  | cons a rest ih =>
    intro h
    simp only [mergeItem]
    rw [if_neg (by simpa using h a (List.mem_cons_self _ _))]
    rw [ih (fun x hx => h x (List.mem_cons_of_mem _ hx))]
    rfl

theorem mergeItem_of_found (item : CartItem) :
    ∀ (pre : List CartItem) (line : CartItem) (post : List CartItem),
      (∀ x ∈ pre, x.product_id ≠ item.product_id) →
      line.product_id = item.product_id →
      mergeItem (pre ++ line :: post) item =
        pre ++ { line with quantity := line.quantity + item.quantity } :: post := by
  intro pre
  induction pre with
  | nil =>
    intro line post _ hline
    simp only [List.nil_append, mergeItem]
    rw [if_pos (by simpa using hline)]
  | cons a rest ih =>
    intro line post hpre hline
    simp only [List.cons_append, mergeItem]
    rw [if_neg (by simpa using hpre a (List.mem_cons_self _ _))]
    simp only [List.append_eq]
    rw [ih line post (fun x hx => hpre x (List.mem_cons_of_mem _ hx)) hline]

theorem mem_mergeItem_pid (item : CartItem) {a : String} :
    ∀ items : List CartItem, a ∈ (mergeItem items item).map (fun x => x.product_id) →
      a ∈ items.map (fun x => x.product_id) ∨ a = item.product_id := by
  intro items
  induction items with
  | nil => intro h; simp [mergeItem] at h; exact Or.inr h
  | cons x rest ih =>
    intro h
    simp only [mergeItem] at h
    by_cases hx : x.product_id = item.product_id
    · rw [if_pos (by simpa using hx)] at h
      simp only [List.map_cons, List.mem_cons] at h ⊢
      tauto
    · rw [if_neg (by simpa using hx)] at h
      simp only [List.map_cons, List.mem_cons] at h ⊢
      rcases h with h | h
      · exact Or.inl (Or.inl h)
      · rcases ih h with h2 | h2
        · exact Or.inl (Or.inr h2)
        · exact Or.inr h2

theorem mergeItem_pid_nodup (item : CartItem) :
    ∀ items : List CartItem, (items.map (fun x => x.product_id)).Nodup →
      ((mergeItem items item).map (fun x => x.product_id)).Nodup := by
  intro items
  induction items with
  | nil => intro _; simp [mergeItem]
  | cons x rest ih =>
    intro h
    simp only [mergeItem]
    by_cases hx : x.product_id = item.product_id
    · rw [if_pos (by simpa using hx)]
      simpa using h
    · rw [if_neg (by simpa using hx)]
      simp only [List.map_cons, List.nodup_cons] at h ⊢
      refine ⟨?_, ih h.2⟩
      intro hmem
      rcases mem_mergeItem_pid item rest hmem with h2 | h2
      · exact h.1 h2
      · exact hx h2

theorem mergeItem_pos (item : CartItem) (hit : 0 < item.quantity) :
    ∀ items : List CartItem, (∀ x ∈ items, 0 < x.quantity) →
      ∀ x ∈ mergeItem items item, 0 < x.quantity := by
  intro items
  induction items with
  | nil =>
    intro _ x hx
    simp only [mergeItem, List.mem_singleton] at hx
    exact hx ▸ hit
  | cons a rest ih =>
    intro hall x hx
    simp only [mergeItem] at hx
    by_cases ha : a.product_id = item.product_id
    · rw [if_pos (by simpa using ha)] at hx
      rcases List.mem_cons.mp hx with h | h
      · subst h
        exact add_pos (hall a (List.mem_cons_self _ _)) hit
      · exact hall x (List.mem_cons_of_mem _ h)
    · rw [if_neg (by simpa using ha)] at hx
      rcases List.mem_cons.mp hx with h | h
      · exact h ▸ hall a (List.mem_cons_self _ _)
      · exact ih (fun y hy => hall y (List.mem_cons_of_mem _ hy)) x h

/-! ### Case analysis of one route application on the stored carts -/

theorem carts_applyOp (op : CartOp) (db : DB) :
    ∀ c ∈ (applyOp op db).carts,
      c ∈ db.carts ∨
      c.items = [] ∨
      (∃ now fId u item, op = CartOp.addItem now fId u item ∧ c.items = [item]) ∨
      (∃ now fId u item cart, op = CartOp.addItem now fId u item ∧ cart ∈ db.carts ∧
        c.items = mergeItem cart.items item) ∨
      (∃ cart ∈ db.carts, ∃ pid,
        c.items = cart.items.filter (fun it => it.product_id != pid)) := by
  intro c hc
  cases op with
  | getCart now fId u =>
    simp only [applyOp, get_cart] at hc
    rcases hfc : findCart db u with _ | cart
    · rw [hfc] at hc
      rcases List.mem_append.mp hc with h | h
      · exact Or.inl h
      · simp only [List.mem_singleton] at h
        subst h
        exact Or.inr (Or.inl rfl)
    · rw [hfc] at hc
      exact Or.inl hc
  | addItem now fId u item =>
    simp only [applyOp, add_to_cart] at hc
    rcases hfc : findCart db u with _ | cart
    · rw [hfc] at hc
      rcases List.mem_append.mp hc with h | h
      · exact Or.inl h
      · simp only [List.mem_singleton] at h
        subst h
        exact Or.inr (Or.inr (Or.inl ⟨now, fId, u, item, rfl, rfl⟩))
    · rw [hfc] at hc
      rcases mem_updateCartList u _ now hc with h | ⟨c0, hc0, rfl⟩
      · exact Or.inl h
      · exact Or.inr (Or.inr (Or.inr (Or.inl
          ⟨now, fId, u, item, cart, rfl, List.mem_of_find?_eq_some hfc, rfl⟩)))
  | removeItem now pid u =>
    simp only [applyOp, remove_from_cart] at hc
    rcases hfc : findCart db u with _ | cart
    · rw [hfc] at hc
      exact Or.inl hc
    · rw [hfc] at hc
      rcases mem_updateCartList u _ now hc with h | ⟨c0, hc0, rfl⟩
      · exact Or.inl h
      · exact Or.inr (Or.inr (Or.inr (Or.inr
          ⟨cart, List.mem_of_find?_eq_some hfc, pid, rfl⟩)))
  | clearCart now u =>
    simp only [applyOp, clear_cart] at hc
    rcases mem_updateCartList u _ now hc with h | ⟨c0, hc0, rfl⟩
    · exact Or.inl h
    · exact Or.inr (Or.inl rfl)
  | createOrder now fId u od =>
    simp only [applyOp, create_order] at hc
    rcases mem_updateCartList u _ now hc with h | ⟨c0, hc0, rfl⟩
    · exact Or.inl h
    · exact Or.inr (Or.inl rfl)

theorem cartQtyPositive_applyOp (op : CartOp) (db : DB) (hdb : cartQtyPositive db)
    (hop : opQtyPositive op) : cartQtyPositive (applyOp op db) := by
  intro c hc
  rcases carts_applyOp op db c hc with h | h |
    ⟨now, fId, u, item, hop_eq, hitems⟩ |
    ⟨now, fId, u, item, cart, hop_eq, hcart, hitems⟩ |
    ⟨cart, hcart, pid, hitems⟩
  · exact hdb c h
  · intro x hx
    rw [h] at hx
    exact absurd hx (List.not_mem_nil x)
  · intro x hx
    rw [hitems] at hx
    simp only [List.mem_singleton] at hx
    subst hx
    subst hop_eq
    exact hop
  · intro x hx
    rw [hitems] at hx
    subst hop_eq
    exact mergeItem_pos item hop cart.items (hdb cart hcart) x hx
  · intro x hx
    rw [hitems] at hx
    exact hdb cart hcart x (List.mem_of_mem_filter hx)

theorem cartPidNodup_applyOp (op : CartOp) (db : DB) (hdb : cartPidNodup db) :
    cartPidNodup (applyOp op db) := by
  intro c hc
  rcases carts_applyOp op db c hc with h | h |
    ⟨now, fId, u, item, _, hitems⟩ |
    ⟨now, fId, u, item, cart, _, hcart, hitems⟩ |
    ⟨cart, hcart, pid, hitems⟩
  · exact hdb c h
  · rw [h]; simp
  · rw [hitems]; simp
  · rw [hitems]
    exact mergeItem_pid_nodup item cart.items (hdb cart hcart)
  · rw [hitems]
    exact List.Nodup.sublist
      (List.Sublist.map (fun x : CartItem => x.product_id) (List.filter_sublist cart.items))
      (hdb cart hcart)

theorem cartQtyPositive_runOps :
    ∀ ops : List CartOp, (∀ op ∈ ops, opQtyPositive op) →
      ∀ db : DB, cartQtyPositive db → cartQtyPositive (runOps ops db) := by
  intro ops
  induction ops with
  | nil => intro _ db hdb; exact hdb
  | cons op rest ih =>
    intro hops db hdb
    exact ih (fun o ho => hops o (List.mem_cons_of_mem _ ho)) _
      (cartQtyPositive_applyOp op db hdb (hops op (List.mem_cons_self _ _)))

theorem cartPidNodup_runOps :
    ∀ ops : List CartOp, ∀ db : DB, cartPidNodup db → cartPidNodup (runOps ops db) := by
  intro ops
  induction ops with
  | nil => intro db hdb; exact hdb
  | cons op rest ih =>
    intro db hdb
    exact ih _ (cartPidNodup_applyOp op db hdb)

theorem get_cart_items_after_set_empty (now2 : Nat) (f2 u : String) (now : Nat)
    (db : DB) :
    (get_cart now2 f2 u (setCartItems u [] now db)).1.items = [] := by
  simp only [get_cart, findCart_setCartItems_self]
  cases findCart db u <;> simp

/-! ### Claim theorems -/

/-- C1: when a user already has a cart, `add_to_cart` merges by product id —
it bumps the quantity of the first line with the incoming product id (keeping
the stored name/price/image snapshot of that line) or, when no line matches,
appends the incoming line at the end; adding the same product with
quantities `q1` then `q2` starting from no cart yields one line with
quantity `q1 + q2` (in particular 2 then 3 gives a single line with 5). -/
theorem add_to_cart_merges_by_product_id :
    (∀ (now : Nat) (freshId u : String) (item : CartItem) (db : DB) (cart : Cart),
      findCart db u = some cart →
      ∃ cart1, findCart (add_to_cart now freshId item u db) u = some cart1 ∧
        cart1.id = cart.id ∧ cart1.user_id = cart.user_id ∧
        cart1.items = mergeItem cart.items item ∧ cart1.updated_at = now) ∧
    (∀ (items : List CartItem) (item : CartItem),
      ((∀ x ∈ items, x.product_id ≠ item.product_id) →
        mergeItem items item = items ++ [item]) ∧
      (∀ pre line post, items = pre ++ line :: post →
        (∀ x ∈ pre, x.product_id ≠ item.product_id) →
        line.product_id = item.product_id →
        mergeItem items item =
          pre ++ { line with quantity := line.quantity + item.quantity } :: post)) ∧
    (∀ (n1 : Nat) (f1 : String) (n2 : Nat) (f2 u pid nm : String) (pr : Rat)
      (img : String) (q1 q2 : Int) (db : DB),
      findCart db u = none →
      ∃ cart1, findCart (add_to_cart n2 f2 ⟨pid, q2, nm, pr, img⟩ u
          (add_to_cart n1 f1 ⟨pid, q1, nm, pr, img⟩ u db)) u = some cart1 ∧
        cart1.items = [⟨pid, q1 + q2, nm, pr, img⟩]) := by
  refine ⟨?_, ?_, ?_⟩
  · intro now fId u item db cart hfc
    refine ⟨{ cart with items := mergeItem cart.items item, updated_at := now },
      ?_, rfl, rfl, rfl, rfl⟩
    have h1 : add_to_cart now fId item u db =
        setCartItems u (mergeItem cart.items item) now db := by
      simp only [add_to_cart, hfc]
    rw [h1, findCart_setCartItems_self, hfc]
    rfl
  · intro items item
    refine ⟨mergeItem_of_forall_ne item items, ?_⟩
    intro pre line post heq hpre hline
    subst heq
    exact mergeItem_of_found item pre line post hpre hline
  · intro n1 f1 n2 f2 u pid nm pr img q1 q2 db hnone
    have hdb1 : add_to_cart n1 f1 ⟨pid, q1, nm, pr, img⟩ u db =
        { db with carts := db.carts ++
            [{ id := f1, user_id := u, items := [⟨pid, q1, nm, pr, img⟩], updated_at := n1 }] } := by
      simp only [add_to_cart, hnone]
    have hfind1 : findCart (add_to_cart n1 f1 ⟨pid, q1, nm, pr, img⟩ u db) u =
        some { id := f1, user_id := u, items := [⟨pid, q1, nm, pr, img⟩], updated_at := n1 } := by
      rw [hdb1]
      show (db.carts ++ [_]).find? _ = _
      rw [find?_append_of_none hnone]
      simp [List.find?]
    generalize add_to_cart n1 f1 ⟨pid, q1, nm, pr, img⟩ u db = db1 at hfind1 ⊢
    have hdb2 : add_to_cart n2 f2 ⟨pid, q2, nm, pr, img⟩ u db1 =
        setCartItems u (mergeItem [⟨pid, q1, nm, pr, img⟩] ⟨pid, q2, nm, pr, img⟩) n2 db1 := by
      simp only [add_to_cart, hfind1]
    have hmerge : mergeItem [⟨pid, q1, nm, pr, img⟩] (⟨pid, q2, nm, pr, img⟩ : CartItem) =
        [⟨pid, q1 + q2, nm, pr, img⟩] := by
      simp [mergeItem]
    refine ⟨⟨f1, u, [⟨pid, q1 + q2, nm, pr, img⟩], n2⟩, ?_, rfl⟩
    rw [hdb2, findCart_setCartItems_self, hfind1, hmerge]
    rfl

/-- C1 witness: adding product `p1` with quantity 2 and then quantity 3 to a
fresh store leaves one cart line with quantity 5. -/
theorem add_to_cart_merges_by_product_id_witness :
    ∃ cart1, findCart (add_to_cart 1 "c1" ⟨"p1", 3, "Widget", 10, "img"⟩ "u1"
        (add_to_cart 0 "c1" ⟨"p1", 2, "Widget", 10, "img"⟩ "u1" dbEmpty)) "u1" = some cart1 ∧
      cart1.items = [⟨"p1", 5, "Widget", 10, "img"⟩] := by
  have h := add_to_cart_merges_by_product_id.2.2 0 "c1" 1 "c1" "u1" "p1" "Widget" 10 "img"
    2 3 dbEmpty rfl
  simpa using h

/-- C2: `create_order` derives payment status `completed` exactly for
payment method `card` and `pending` for every other method, fixes order
status to `processing`, and copies the caller-supplied items and total into
the order without recomputation. -/
theorem create_order_status_and_passthrough :
    ∀ (now : Nat) (freshId u : String) (od : OrderCreate) (db : DB),
      ((create_order now freshId u od db).1.payment_method = od.payment_method) ∧
      (od.payment_method = "card" →
        (create_order now freshId u od db).1.payment_status = "completed") ∧
      (od.payment_method ≠ "card" →
        (create_order now freshId u od db).1.payment_status = "pending") ∧
      (create_order now freshId u od db).1.order_status = "processing" ∧
      (create_order now freshId u od db).1.items = od.items ∧
      (create_order now freshId u od db).1.total = od.total := by
  intro now fId u od db
  refine ⟨rfl, ?_, ?_, rfl, rfl, rfl⟩
  · intro h
    show (if od.payment_method == "card" then "completed" else "pending") = "completed"
    rw [if_pos (by simp [h])]
  · intro h
    show (if od.payment_method == "card" then "completed" else "pending") = "pending"
    rw [if_neg (by simpa using h)]

/-- C2 witness: a `card` order comes out `completed`, a `crypto` order comes
out `pending`. -/
theorem create_order_status_and_passthrough_witness :
    (create_order 0 "o1" "u1" ⟨[], 5, "card", [], none⟩ dbEmpty).1.payment_status =
      "completed" ∧
    (create_order 0 "o1" "u1" ⟨[], 5, "crypto", [], none⟩ dbEmpty).1.payment_status =
      "pending" :=
  ⟨(create_order_status_and_passthrough 0 "o1" "u1" ⟨[], 5, "card", [], none⟩ dbEmpty).2.1 rfl,
   (create_order_status_and_passthrough 0 "o1" "u1" ⟨[], 5, "crypto", [], none⟩ dbEmpty).2.2.1
     (by decide)⟩

/-- C3: after `create_order`, a `get_cart` for the ordering user observes an
empty item list — whatever the cart held before and whatever items were
submitted — while the cart documents of every other user are untouched. -/
theorem create_order_clears_cart :
    ∀ (now : Nat) (freshId u : String) (od : OrderCreate) (db : DB) (now2 : Nat)
      (f2 : String),
      (get_cart now2 f2 u (create_order now freshId u od db).2).1.items = [] ∧
      (∀ v, v ≠ u → findCart (create_order now freshId u od db).2 v = findCart db v) := by
  intro now fId u od db now2 f2
  constructor
  · exact get_cart_items_after_set_empty now2 f2 u now _
  · intro v hvu
    have h : (create_order now fId u od db).2 =
        setCartItems u [] now
          { db with orders := db.orders ++ [(create_order now fId u od db).1] } := rfl
    rw [h, findCart_setCartItems_ne hvu]
    rfl

/-- C4: the recommendation adapter returns the raw model reply as the
explanation, and its product list is exactly the loaded products whose name
equals (case-sensitively) one of the comma-separated, whitespace-stripped
tokens of the reply, truncated to at most 4; when at most 4 products match,
the list is exactly the matching products, and zero matches just yields an
empty list (no error path in the parsing step). -/
theorem get_ai_recommendations_spec :
    ∀ (products : List Product) (response : String),
      ((get_ai_recommendations products response).2 = response) ∧
      ((get_ai_recommendations products response).1 =
        (products.filter (fun p =>
          ((pySplitComma response).map pyStrip).contains p.name)).take 4) ∧
      ((get_ai_recommendations products response).1.length ≤ 4) ∧
      (∀ p ∈ (get_ai_recommendations products response).1,
        p ∈ products ∧ p.name ∈ (pySplitComma response).map pyStrip) ∧
      ((products.filter (fun p =>
          ((pySplitComma response).map pyStrip).contains p.name)).length ≤ 4 →
        (get_ai_recommendations products response).1 =
          products.filter (fun p =>
            ((pySplitComma response).map pyStrip).contains p.name)) := by
  intro products response
  refine ⟨rfl, rfl, ?_, ?_, ?_⟩
  · show ((products.filter _).take 4).length ≤ 4
    simp [List.length_take]
  · intro p hp
    have hp2 : p ∈ products.filter (fun p =>
        ((pySplitComma response).map pyStrip).contains p.name) :=
      (List.take_sublist 4 _).subset hp
    refine ⟨List.mem_of_mem_filter hp2, ?_⟩
    simpa using List.of_mem_filter hp2
  · intro hlen
    exact List.take_of_length_le hlen

/-- C4 witness: with a three-product catalog and the reply
`"MetaBand, AlphaCam"`, the adapter returns exactly the two named products
and echoes the reply as the explanation. -/
theorem get_ai_recommendations_spec_witness :
    (get_ai_recommendations
      [⟨"p1", "AlphaCam", "d1", 100, 100, "cameras", "i1", 5, [], 0⟩,
       ⟨"p2", "MetaBand", "d2", 200, 200, "wearables", "i2", 5, [], 0⟩,
       ⟨"p3", "GammaPhone", "d3", 300, 300, "phones", "i3", 5, [], 0⟩]
      "MetaBand, AlphaCam").2 = "MetaBand, AlphaCam" ∧
    (get_ai_recommendations
      [⟨"p1", "AlphaCam", "d1", 100, 100, "cameras", "i1", 5, [], 0⟩,
       ⟨"p2", "MetaBand", "d2", 200, 200, "wearables", "i2", 5, [], 0⟩,
       ⟨"p3", "GammaPhone", "d3", 300, 300, "phones", "i3", 5, [], 0⟩]
      "MetaBand, AlphaCam").1 =
      [⟨"p1", "AlphaCam", "d1", 100, 100, "cameras", "i1", 5, [], 0⟩,
       ⟨"p2", "MetaBand", "d2", 200, 200, "wearables", "i2", 5, [], 0⟩,
       ⟨"p3", "GammaPhone", "d3", 300, 300, "phones", "i3", 5, [], 0⟩].filter
        (fun p => ((pySplitComma "MetaBand, AlphaCam").map pyStrip).contains p.name) ∧
    ((⟨"p1", "AlphaCam", "d1", 100, 100, "cameras", "i1", 5, [], 0⟩ : Product) ∈
      [⟨"p1", "AlphaCam", "d1", 100, 100, "cameras", "i1", 5, [], 0⟩,
       ⟨"p2", "MetaBand", "d2", 200, 200, "wearables", "i2", 5, [], 0⟩,
       ⟨"p3", "GammaPhone", "d3", 300, 300, "phones", "i3", 5, [], 0⟩] ∧
      "AlphaCam" ∈ (pySplitComma "MetaBand, AlphaCam").map pyStrip) := by
  have h := get_ai_recommendations_spec
    [⟨"p1", "AlphaCam", "d1", 100, 100, "cameras", "i1", 5, [], 0⟩,
     ⟨"p2", "MetaBand", "d2", 200, 200, "wearables", "i2", 5, [], 0⟩,
     ⟨"p3", "GammaPhone", "d3", 300, 300, "phones", "i3", 5, [], 0⟩]
    "MetaBand, AlphaCam"
  exact ⟨h.1, h.2.2.2.2 (by decide),
    h.2.2.2.1 ⟨"p1", "AlphaCam", "d1", 100, 100, "cameras", "i1", 5, [], 0⟩ (by decide)⟩

/-- C6: `login` answers 401 with the very same error value — status and
message — both when no user document carries the requested email and when
the password verifier rejects, so the two failure modes are
indistinguishable to the caller; on success it returns a token freshly
signed for the stored user id together with the stored `User` fields. -/
theorem login_spec :
    ∀ (verify : String → String → Bool) (sign : String → String) (ud : UserLogin)
      (users : List UserDoc),
      (users.find? (fun d => d.email == ud.email) = none →
        login verify sign ud users = Except.error ⟨401, "Invalid email or password"⟩) ∧
      (∀ doc, users.find? (fun d => d.email == ud.email) = some doc →
        verify ud.password doc.password_hash = false →
        login verify sign ud users = Except.error ⟨401, "Invalid email or password"⟩) ∧
      (∀ doc, users.find? (fun d => d.email == ud.email) = some doc →
        verify ud.password doc.password_hash = true →
        login verify sign ud users = Except.ok
          ⟨sign doc.id, "bearer", ⟨doc.id, doc.email, doc.name, doc.created_at⟩⟩) := by
  intro verify sign ud users
  refine ⟨?_, ?_, ?_⟩
  · intro h
    simp only [login, h]
  · intro doc hdoc hv
    simp [login, hdoc, hv]
  · intro doc hdoc hv
    simp [login, hdoc, hv]

/-- C6 witness: against a one-user store, an unknown email and a wrong
password produce the identical 401 error value, and the right password
yields the signed token and user. -/
theorem login_spec_witness :
    login (fun p h => p == h) (fun s => s ++ "-t") ⟨"x@y.z", "pw"⟩ [] =
      Except.error ⟨401, "Invalid email or password"⟩ ∧
    login (fun p h => p == h) (fun s => s ++ "-t") ⟨"a@b.c", "wrong"⟩
      [⟨"u1", "a@b.c", "Al", "pw", 0⟩] =
      Except.error ⟨401, "Invalid email or password"⟩ ∧
    login (fun p h => p == h) (fun s => s ++ "-t") ⟨"a@b.c", "pw"⟩
      [⟨"u1", "a@b.c", "Al", "pw", 0⟩] =
      Except.ok ⟨"u1" ++ "-t", "bearer", ⟨"u1", "a@b.c", "Al", 0⟩⟩ :=
  ⟨(login_spec (fun p h => p == h) (fun s => s ++ "-t") ⟨"x@y.z", "pw"⟩ []).1 rfl,
   (login_spec (fun p h => p == h) (fun s => s ++ "-t") ⟨"a@b.c", "wrong"⟩
     [⟨"u1", "a@b.c", "Al", "pw", 0⟩]).2.1 ⟨"u1", "a@b.c", "Al", "pw", 0⟩ (by decide) (by decide),
   (login_spec (fun p h => p == h) (fun s => s ++ "-t") ⟨"a@b.c", "pw"⟩
     [⟨"u1", "a@b.c", "Al", "pw", 0⟩]).2.2 ⟨"u1", "a@b.c", "Al", "pw", 0⟩ (by decide) (by decide)⟩

/-- C7: `remove_from_cart` raises 404 exactly when the user has no cart;
when a cart exists it succeeds, replacing the item list by the lines whose
product id differs from the given one (total removal of every matching
line, never a partial quantity decrement) and stamping the new time; if no
line carries the product id the item list is left unchanged. -/
theorem remove_from_cart_spec :
    ∀ (now : Nat) (pid u : String) (db : DB),
      (remove_from_cart now pid u db = Except.error ⟨404, "Cart not found"⟩ ↔
        findCart db u = none) ∧
      (∀ cart, findCart db u = some cart →
        remove_from_cart now pid u db = Except.ok
          (setCartItems u (cart.items.filter (fun it => it.product_id != pid)) now db) ∧
        findCart
            (setCartItems u (cart.items.filter (fun it => it.product_id != pid)) now db) u =
          some { cart with
            items := cart.items.filter (fun it => it.product_id != pid)
            updated_at := now } ∧
        ((∀ x ∈ cart.items, x.product_id ≠ pid) →
          cart.items.filter (fun it => it.product_id != pid) = cart.items)) := by
  intro now pid u db
  constructor
  · constructor
    · intro h
      rcases hfc : findCart db u with _ | cart
      · rfl
      · exfalso
        simp only [remove_from_cart, hfc] at h
        exact Except.noConfusion h
    · intro h
      simp only [remove_from_cart, h]
  · intro cart hfc
    refine ⟨by simp only [remove_from_cart, hfc], ?_, ?_⟩
    · rw [findCart_setCartItems_self, hfc]
      rfl
    · intro hall
      refine List.filter_eq_self.mpr ?_
      intro a ha
      simpa using hall a ha

/-- C7 witness: removing an absent product `p9` from the one-line cart of `u1`
succeeds and the filter keeps the line intact, while removing from a user
with no cart raises the 404 error. -/
theorem remove_from_cart_spec_witness :
    remove_from_cart 1 "p9" "u1"
        ⟨[⟨"a", "u1", [⟨"p1", 2, "n", 1, "i"⟩], 0⟩], [], [], []⟩ =
      Except.ok (setCartItems "u1"
        ([⟨"p1", 2, "n", 1, "i"⟩].filter (fun it => it.product_id != "p9")) 1
        ⟨[⟨"a", "u1", [⟨"p1", 2, "n", 1, "i"⟩], 0⟩], [], [], []⟩) ∧
    ([(⟨"p1", 2, "n", 1, "i"⟩ : CartItem)].filter (fun it => it.product_id != "p9")) =
      [⟨"p1", 2, "n", 1, "i"⟩] ∧
    remove_from_cart 1 "p9" "u9" dbEmpty = Except.error ⟨404, "Cart not found"⟩ := by
  have h := (remove_from_cart_spec 1 "p9" "u1"
    ⟨[⟨"a", "u1", [⟨"p1", 2, "n", 1, "i"⟩], 0⟩], [], [], []⟩).2
    ⟨"a", "u1", [⟨"p1", 2, "n", 1, "i"⟩], 0⟩ rfl
  exact ⟨h.1, h.2.2 (by decide), (remove_from_cart_spec 1 "p9" "u9" dbEmpty).1.mpr rfl⟩

/-- C3 witness: ordering as `u1` from a store holding carts for `u1` and
`u2` empties the cart of `u1` as seen by `get_cart` and leaves the `u2` cart
document exactly as it was. -/
theorem create_order_clears_cart_witness :
    (get_cart 2 "c9" "u1" (create_order 1 "o1" "u1" ⟨[], 5, "card", [], none⟩
      ⟨[⟨"a", "u1", [⟨"p1", 2, "n", 1, "i"⟩], 0⟩, ⟨"b", "u2", [⟨"p2", 1, "n", 1, "i"⟩], 0⟩],
        [], [], []⟩).2).1.items = [] ∧
    findCart (create_order 1 "o1" "u1" ⟨[], 5, "card", [], none⟩
      ⟨[⟨"a", "u1", [⟨"p1", 2, "n", 1, "i"⟩], 0⟩, ⟨"b", "u2", [⟨"p2", 1, "n", 1, "i"⟩], 0⟩],
        [], [], []⟩).2 "u2" =
      findCart ⟨[⟨"a", "u1", [⟨"p1", 2, "n", 1, "i"⟩], 0⟩,
        ⟨"b", "u2", [⟨"p2", 1, "n", 1, "i"⟩], 0⟩], [], [], []⟩ "u2" :=
  ⟨(create_order_clears_cart 1 "o1" "u1" ⟨[], 5, "card", [], none⟩ _ 2 "c9").1,
   (create_order_clears_cart 1 "o1" "u1" ⟨[], 5, "card", [], none⟩ _ 2 "c9").2 "u2"
     (by decide)⟩

/-- C8 counterexample: the claim reads every present, non-`"all"` category
filter as selecting by equality, but the Python test `if category and category !=
"all"` treats the empty string as falsy, so `get_products` with the present
filter `""` returns the whole catalog instead of the (empty) set of
products whose category equals `""`. -/
theorem get_products_empty_filter_cex :
    get_products (some "")
        ⟨[], [], [⟨"p1", "CryptoPhone Pro X", "d", 1, 1, "phones", "i", 5, [], 0⟩], []⟩ ≠
      (((⟨[], [], [⟨"p1", "CryptoPhone Pro X", "d", 1, 1, "phones", "i", 5, [], 0⟩], []⟩ :
          DB)).products.filter (fun p => p.category == "")).take 1000 := by
  decide

/-- C8 (amended): a category filter that is present, non-empty and not the
sentinel `"all"` selects exactly the products whose category equals it
(capped at 1000); an absent filter, the filter `"all"`, or the empty-string
filter returns the full catalog capped at 1000. -/
theorem get_products_spec :
    ∀ (c : String) (db : DB),
      (c ≠ "" → c ≠ "all" →
        get_products (some c) db =
          (db.products.filter (fun p => p.category == c)).take 1000) ∧
      (get_products none db = db.products.take 1000) ∧
      (get_products (some "all") db = db.products.take 1000) ∧
      (get_products (some "") db = db.products.take 1000) := by
  intro c db
  refine ⟨?_, ?_, ?_, ?_⟩
  · intro h1 h2
    simp only [get_products, categoryQuery]
    rw [if_pos ⟨h1, h2⟩]
  · simp [get_products, categoryQuery, List.filter_true]
  · simp [get_products, categoryQuery, List.filter_true]
  · simp [get_products, categoryQuery, List.filter_true]

/-- C8 witness: filtering a two-product catalog by `phones` keeps exactly
the phone, and no filter returns the whole catalog. -/
theorem get_products_spec_witness :
    get_products (some "phones")
        ⟨[], [], [⟨"p1", "PhoneA", "d", 1, 1, "phones", "i", 5, [], 0⟩,
          ⟨"p2", "LapB", "d", 2, 2, "laptops", "i", 5, [], 0⟩], []⟩ =
      (((⟨[], [], [⟨"p1", "PhoneA", "d", 1, 1, "phones", "i", 5, [], 0⟩,
          ⟨"p2", "LapB", "d", 2, 2, "laptops", "i", 5, [], 0⟩], []⟩ : DB)).products.filter
        (fun p => p.category == "phones")).take 1000 ∧
    get_products none
        ⟨[], [], [⟨"p1", "PhoneA", "d", 1, 1, "phones", "i", 5, [], 0⟩,
          ⟨"p2", "LapB", "d", 2, 2, "laptops", "i", 5, [], 0⟩], []⟩ =
      ((⟨[], [], [⟨"p1", "PhoneA", "d", 1, 1, "phones", "i", 5, [], 0⟩,
          ⟨"p2", "LapB", "d", 2, 2, "laptops", "i", 5, [], 0⟩], []⟩ : DB)).products.take 1000 :=
  ⟨(get_products_spec "phones" _).1 (by decide) (by decide),
   (get_products_spec "phones" _).2.1⟩

/-- C9: `clear_cart` never fails (it is a total state transformer with no
error branch); after it runs, whatever cart document the lookup for the user
finds has an empty item list and the fresh timestamp, and a subsequent
`get_cart` always observes an empty item list, whether or not a cart
existed beforehand. -/
theorem clear_cart_spec :
    ∀ (now : Nat) (u : String) (db : DB) (now2 : Nat) (f2 : String),
      (∀ cart1, findCart (clear_cart now u db) u = some cart1 →
        cart1.items = [] ∧ cart1.updated_at = now) ∧
      (get_cart now2 f2 u (clear_cart now u db)).1.items = [] := by
  intro now u db now2 f2
  constructor
  · intro cart1 h
    rw [show clear_cart now u db = setCartItems u [] now db from rfl,
      findCart_setCartItems_self] at h
    rcases hdb : findCart db u with _ | c
    · rw [hdb] at h
      exact Option.noConfusion h
    · rw [hdb, Option.map_some'] at h
      cases Option.some.inj h
      exact ⟨rfl, rfl⟩
  · exact get_cart_items_after_set_empty now2 f2 u now db

/-- C9 witness: clearing the one-line cart of `u1` leaves a stored cart with no
items and the new timestamp, and `get_cart` then returns an empty list. -/
theorem clear_cart_spec_witness :
    ((⟨"a", "u1", [], 3⟩ : Cart).items = [] ∧ (⟨"a", "u1", [], 3⟩ : Cart).updated_at = 3) ∧
    (get_cart 4 "c2" "u1" (clear_cart 3 "u1"
      ⟨[⟨"a", "u1", [⟨"p1", 2, "n", 1, "i"⟩], 0⟩], [], [], []⟩)).1.items = [] :=
  ⟨(clear_cart_spec 3 "u1" ⟨[⟨"a", "u1", [⟨"p1", 2, "n", 1, "i"⟩], 0⟩], [], [], []⟩ 4 "c2").1
      ⟨"a", "u1", [], 3⟩ (by decide),
   (clear_cart_spec 3 "u1" ⟨[⟨"a", "u1", [⟨"p1", 2, "n", 1, "i"⟩], 0⟩], [], [], []⟩ 4 "c2").2⟩

/-- C5 counterexample: the `CartItem` quantity is an unvalidated integer, so
a single `addItem` carrying quantity 0 reaches a cart whose line has a
non-positive quantity — the claimed invariant fails on the code as written. -/
theorem cart_quantity_positive_cex :
    ¬ cartQtyPositive (runOps
      [CartOp.addItem 0 "c1" "u1" ⟨"p1", 0, "Widget", 10, "img"⟩] dbEmpty) := by
  unfold cartQtyPositive
  decide

/-- C5 (amended): provided every `addItem` in the trace carries a positive
quantity — the code itself never validates this — every cart reachable from
the empty store through the cart and order routes has only positive line
quantities (merging adds two positive quantities, removal and clearing only
drop lines). -/
theorem cart_quantity_positive_of_positive_adds :
    ∀ ops : List CartOp, (∀ op ∈ ops, opQtyPositive op) →
      cartQtyPositive (runOps ops dbEmpty) := by
  intro ops hops
  refine cartQtyPositive_runOps ops hops dbEmpty ?_
  intro c hc
  exact absurd hc (List.not_mem_nil c)

/-- C5 witness: a two-add trace with positive quantities reaches a store
whose carts all satisfy the positivity invariant. -/
theorem cart_quantity_positive_of_positive_adds_witness :
    cartQtyPositive (runOps
      [CartOp.addItem 0 "c1" "u1" ⟨"p1", 2, "n", 1, "i"⟩,
       CartOp.addItem 1 "c2" "u1" ⟨"p1", 3, "n", 1, "i"⟩] dbEmpty) := by
  refine cart_quantity_positive_of_positive_adds _ ?_
  intro op hop
  rcases List.mem_cons.mp hop with rfl | hop
  · exact (by decide : (0 : Int) < 2)
  rcases List.mem_cons.mp hop with rfl | hop
  · exact (by decide : (0 : Int) < 3)
  exact absurd hop (List.not_mem_nil op)

/-- C10: starting from the empty store, every cart reachable through the
cart and order routes keeps at most one line per product id — `add_to_cart`
merges instead of appending a duplicate, `remove_from_cart` only drops
lines, and `clear_cart`/`create_order` empty the list. -/
theorem cart_lines_unique_product_id :
    ∀ ops : List CartOp, ∀ c ∈ (runOps ops dbEmpty).carts,
      ((c.items.map (fun x => x.product_id)).Nodup) := by
  intro ops
  refine cartPidNodup_runOps ops dbEmpty ?_
  intro c hc
  exact absurd hc (List.not_mem_nil c)

/-- C10 witness: after adding the same product twice the reachable cart is
the single-line merge, and its product-id list has no duplicates. -/
theorem cart_lines_unique_product_id_witness :
    (((⟨"c1", "u1", [⟨"p1", 5, "n", 1, "i"⟩], 1⟩ : Cart).items.map
      (fun x => x.product_id)).Nodup) :=
  cart_lines_unique_product_id
    [CartOp.addItem 0 "c1" "u1" ⟨"p1", 2, "n", 1, "i"⟩,
     CartOp.addItem 1 "c2" "u1" ⟨"p1", 3, "n", 1, "i"⟩]
    ⟨"c1", "u1", [⟨"p1", 5, "n", 1, "i"⟩], 1⟩ (by decide)

end Store
